import Mathlib

/-!
Verification development for the zotero-paper-chat addon.

The definitions below are shallow embeddings of the JavaScript sources:

* `src/addon/content/main.js` (concatenation of `main.js`, `geminiService.js`,
  `pdfNavigator.js`, `conversationStore.js`, `bootstrap.js`),
* `src/addon/content/chatPanel.js`,
* `src/addon/content/pdfExtractor.js`.

Strings are modelled by Lean `String` / `List Char` (the sources only rely on
per-code-unit behaviour that agrees with per-character behaviour on the
relevant inputs), JavaScript numbers holding item ids, page numbers, counts
and timestamps are modelled by `Nat`, and the host application (Zotero) is
modelled by explicit environment records holding the results of its calls.
-/

namespace PaperChat

/-! ## Reference parser

Embeds `GeminiService.extractPageReferences` (main.js, lines 515-534) and
`PDFNavigator.parseAndLinkReferences` (main.js, lines 693-735).

Both functions run a JavaScript regex of the shape
`(?:page|Page|PAGE)\s*(\d+)(?:\s*[-X]\s*(\d+))?` with flag `g` in an
`exec` loop.  Because the character classes `\s`, `\d` and the dash class
are pairwise disjoint, the backtracking regex engine behaves exactly like
the deterministic maximal-munch scanner below: at each position it either
produces the unique match starting there or moves one character forward,
and after a match it resumes at the first character past the match.
-/

/-- JavaScript `\s` (the whitespace forms occurring in chat text). -/
def jsIsSpace (c : Char) : Bool :=
  c = ' ' || c = '\t' || c = '\n' || c = '\r' || c = '\x0b' || c = '\x0c' ||
  c = ' ' || c = '﻿'

/-- Decimal digit string to number, as `parseInt(digits, 10)` on an all-digit
match group. -/
def digitsToNat (ds : List Char) : Nat :=
  ds.foldl (fun a c => 10 * a + (c.toNat - '0'.toNat)) 0

/-- The literal alternation `(?:page|Page|PAGE)`: strips one of the three
exact spellings, returning the consumed characters and the rest. -/
def stripPageWord : List Char → Option (List Char × List Char)
  | 'p' :: 'a' :: 'g' :: 'e' :: rest => some (['p', 'a', 'g', 'e'], rest)
  | 'P' :: 'a' :: 'g' :: 'e' :: rest => some (['P', 'a', 'g', 'e'], rest)
  | 'P' :: 'A' :: 'G' :: 'E' :: rest => some (['P', 'A', 'G', 'E'], rest)
  | _ => none

/-- One regex match: the exact characters the match consumed, the first
captured number, and the second captured number when the optional
range group matched. -/
structure PageMatch where
  orig : List Char
  startPage : Nat
  endPage : Option Nat
  deriving DecidableEq, Repr

/-- The regex piece `\s*(\d+)`: greedy whitespace, then at least one digit.
Returns the consumed characters, the captured number and the rest. -/
def matchNumTail (cs : List Char) : Option (List Char × Nat × List Char) :=
  let sp := cs.takeWhile jsIsSpace
  let r := cs.dropWhile jsIsSpace
  let d := r.takeWhile Char.isDigit
  let r2 := r.dropWhile Char.isDigit
  if d.isEmpty then none else some (sp ++ d, digitsToNat d, r2)

/-- The optional regex piece `(?:\s*[dash]\s*(\d+))`: greedy whitespace, one
dash-class character, then `\s*(\d+)`. -/
def matchRangeTail (dash : List Char) (cs : List Char) :
    Option (List Char × Nat × List Char) :=
  let sp := cs.takeWhile jsIsSpace
  match cs.dropWhile jsIsSpace with
  | [] => none
  | c :: r =>
    if dash.contains c then
      match matchNumTail r with
      | some (w, v, rest) => some (sp ++ (c :: w), v, rest)
      | none => none
    else none

/-- Try to match the page-reference regex anchored at the head of `cs`.
`dash` is the dash character class (it differs between the two source
functions).  Returns the match and the remaining input.  The optional range
group is kept when it matches and dropped otherwise, exactly as the
backtracking engine does. -/
def tryMatch (dash : List Char) (cs : List Char) : Option (PageMatch × List Char) :=
  match stripPageWord cs with
  | none => none
  | some (w, r1) =>
    match matchNumTail r1 with
    | none => none
    | some (w1, s, r3) =>
      match matchRangeTail dash r3 with
      | some (w2, e, r7) => some (⟨w ++ w1 ++ w2, s, some e⟩, r7)
      | none => some (⟨w ++ w1, s, none⟩, r3)

/-- A piece of the scanned text: either a maximal run of unmatched
characters or one regex match. -/
inductive Chunk where
  | lit (s : List Char)
  | mtc (m : PageMatch)
  deriving DecidableEq, Repr

/-- Prepend an unmatched character, merging it into a leading literal run. -/
def consLit (c : Char) : List Chunk → List Chunk
  | Chunk.lit s :: rest => Chunk.lit (c :: s) :: rest
  | rest => Chunk.lit [c] :: rest

/-- The `exec` loop: scan left to right, matching at each position or
advancing one character; resume after each match.  Every step consumes at
least one character, so `fuel = length of the input` suffices; the
`fuel = 0` fallback is unreachable from `scanChunks`. -/
def scanAux (dash : List Char) : Nat → List Char → List Chunk
  | _, [] => []
  | 0, cs => [Chunk.lit cs]
  | fuel + 1, c :: cs =>
    match tryMatch dash (c :: cs) with
    | some (m, rest) => Chunk.mtc m :: scanAux dash fuel rest
    | none => consLit c (scanAux dash fuel cs)

/-- Scan a whole text into chunks. -/
def scanChunks (dash : List Char) (cs : List Char) : List Chunk :=
  scanAux dash cs.length cs

/-- Dash class of `extractPageReferences`: `[-–]` (hyphen-minus and U+2013). -/
def extractDash : List Char := ['-', '–']

/-- Dash class of `parseAndLinkReferences`: the source file contains the
mojibake bytes `[-â€“]`, i.e. hyphen-minus, U+00E2, U+20AC, U+201C. -/
def linkDash : List Char := ['-', 'â', '€', '“']

/-- Pages contributed by one match:
`for (let p = startPage; p <= endPage; p++)` with
`endPage = match[2] ? parseInt(match[2]) : startPage`. -/
def rangePages (s : Nat) (e? : Option Nat) : List Nat :=
  let e := e?.getD s
  List.range' s (e + 1 - s)

/-- Models `if (!references.includes(p)) references.push(p)`. -/
def pushUnique (acc : List Nat) (p : Nat) : List Nat :=
  if acc.contains p then acc else acc ++ [p]

/-- First-occurrence deduplication, as the `includes`/`push` loop. -/
def dedupFirst (l : List Nat) : List Nat := l.foldl pushUnique []

/-- Pages of one chunk (literals contribute nothing). -/
def chunkPages : Chunk → List Nat
  | Chunk.lit _ => []
  | Chunk.mtc m => rangePages m.startPage m.endPage

/-- Embeds `GeminiService.extractPageReferences` (main.js 515-534): collect the
pages of every match, deduplicated in order of first occurrence, then
`references.sort((a, b) => a - b)`. -/
def extractPageReferences (text : String) : List Nat :=
  List.insertionSort (· ≤ ·)
    (dedupFirst ((scanChunks extractDash text.data).flatMap chunkPages))

/-- A leaf DOM node appended to the fragment: a text node, or the clickable
span `createPageReference` builds, carrying `(attachmentID, pageNumber)`
in its dataset and click handler. -/
inductive LeafNode where
  | txt (s : String)
  | ref (attachmentID : Nat) (page : Nat)
  deriving DecidableEq, Repr

/-- A top-level child of the returned `DocumentFragment`: a leaf, or the
`rangeSpan` wrapper with its four children. -/
inductive FragNode where
  | leaf (n : LeafNode)
  | span (children : List LeafNode)
  deriving DecidableEq, Repr

/-- How `parseAndLinkReferences` renders one chunk: literal text becomes a
text node; a match with `startPage === endPage` becomes one clickable
reference; otherwise a span `"pages " <ref start> "-" <ref end>`. -/
def renderChunk (attachmentID : Nat) : Chunk → FragNode
  | Chunk.lit s => FragNode.leaf (LeafNode.txt (String.mk s))
  | Chunk.mtc m =>
    let s := m.startPage
    let e := m.endPage.getD s
    if s = e then FragNode.leaf (LeafNode.ref attachmentID s)
    else FragNode.span
      [LeafNode.txt "pages ", LeafNode.ref attachmentID s,
       LeafNode.txt "-", LeafNode.ref attachmentID e]

/-- Embeds `PDFNavigator.parseAndLinkReferences` (main.js 693-735): re-scan the
text (with this function's own dash class) and emit the fragment children
in order. -/
def parseAndLinkReferences (text : String) (attachmentID : Nat) : List FragNode :=
  (scanChunks linkDash text.data).map (renderChunk attachmentID)

/-- Page carried by one leaf node when it is clickable. -/
def leafClickPages : LeafNode → List Nat
  | LeafNode.ref _ p => [p]
  | _ => []

/-- Pages carried by the clickable units inside one fragment child. -/
def fragNodeClickPages : FragNode → List Nat
  | FragNode.leaf n => leafClickPages n
  | FragNode.span cs => cs.flatMap leafClickPages

/-- Pages carried by the clickable units of a fragment, in order. -/
def fragClickPages (l : List FragNode) : List Nat :=
  l.flatMap fragNodeClickPages

/-- The endpoint pages of one chunk's match (what linkify makes clickable). -/
def chunkEndpoints : Chunk → List Nat
  | Chunk.lit _ => []
  | Chunk.mtc m =>
    let s := m.startPage
    let e := m.endPage.getD s
    if s = e then [s] else [s, e]

/-- Reassemble the original characters from a chunk list. -/
def flattenChunks (l : List Chunk) : List Char :=
  l.flatMap fun
    | Chunk.lit s => s
    | Chunk.mtc m => m.orig

/-! ## PDF extractor

Embeds `PDFExtractor` (pdfExtractor.js).  The host calls are modelled by an
environment record: `itemContent` is what `Zotero.Fulltext.getItemContent`
returns (`none` when it throws or yields nothing), `reader` is the result of
`extractFromOpenReader` (`none` when no open reader yields text), and
`cacheFile` is the contents of the full-text index cache file (`none` when
the file does not exist or reading it throws).
-/

namespace PDFExtractor

/-- Result of `Zotero.Fulltext.getItemContent`. -/
structure FullTextContent where
  content : String
  pageCount : Nat
  deriving DecidableEq, Repr

/-- Result of `extractFromOpenReader`. -/
structure ReaderResult where
  text : String
  pageCount : Nat
  deriving DecidableEq, Repr

/-- Host-side state observed by one extraction. -/
structure ExtractorEnv where
  isPdfAttachment : Bool
  itemContent : Option FullTextContent
  reader : Option ReaderResult
  cacheFile : Option String
  deriving DecidableEq, Repr

/-- What `extractContent` returns (the fields the callers use). -/
structure ExtractResult where
  text : String
  pageCount : Nat
  deriving DecidableEq, Repr

/-- The message of the error thrown when every strategy fails. -/
def openTabMessage : String :=
  "Could not extract text. Please OPEN the PDF in a tab and try again."

/-- Embeds `getCachedFullText` (pdfExtractor.js 42-57): returns the indexed content
when `content && content.content` is truthy, else `null`. -/
def getCachedFullText (env : ExtractorEnv) : Option ExtractResult :=
  match env.itemContent with
  | some c => if c.content = "" then none else some ⟨c.content, c.pageCount⟩
  | none => none

/-- Embeds `extractWithZoteroFulltext` (pdfExtractor.js 133-180): strategy 1 is the
open reader, used when `readerContent.text.length > 50`; strategy 2 is the
index cache file, used when `content.length > 50`; otherwise throw. -/
def extractWithZoteroFulltext (env : ExtractorEnv) : Except String ExtractResult :=
  match env.reader with
  | some r =>
    if r.text.length > 50 then Except.ok ⟨r.text, r.pageCount⟩
    else
      match env.cacheFile with
      | some c => if c.length > 50 then Except.ok ⟨c, 0⟩ else Except.error openTabMessage
      | none => Except.error openTabMessage
  | none =>
    match env.cacheFile with
    | some c => if c.length > 50 then Except.ok ⟨c, 0⟩ else Except.error openTabMessage
    | none => Except.error openTabMessage

/-- Embeds `extractContent` (pdfExtractor.js 14-37): validate the attachment, try
`getCachedFullText` first, and only when it returns `null` fall through to
`extractWithPDFJS`, which delegates to `extractWithZoteroFulltext`. -/
def extractContent (env : ExtractorEnv) : Except String ExtractResult :=
  if !env.isPdfAttachment then Except.error "Invalid PDF attachment"
  else
    match getCachedFullText env with
    | some f => Except.ok f
    | none => extractWithZoteroFulltext env

/-- Embeds `estimateTokens` (pdfExtractor.js 258-261): `Math.ceil(length / 4)`. -/
def estimateTokens (text : String) : Nat := (text.length + 3) / 4

/-- Embeds `truncateToTokenLimit` (pdfExtractor.js 269-280). -/
def truncateToTokenLimit (text : String) (maxTokens : Nat := 100000) : String :=
  if estimateTokens text ≤ maxTokens then text
  else String.mk (text.data.take (maxTokens * 4)) ++ "\n\n[Content truncated due to length...]"

end PDFExtractor

/-! ## Conversation store

Embeds `ConversationStore` (main.js 803-954).  The write-through cache and
the preference storage always hold the same history after `addMessage`, so
the store is modelled as the merged view: a map from conversation id to its
message list.
-/

/-- A chat message as stored: `{role, content, timestamp: Date.now()}`. -/
structure Message where
  role : String
  content : String
  timestamp : Nat
  deriving DecidableEq, Repr

namespace ConversationStore

/-- The merged cache/storage view. -/
def Store : Type := String → List Message

/-- Embeds `PaperChat.getMaxHistoryLength` (main.js 949-951):
`Zotero.Prefs.get(...) || MAX_HISTORY_LENGTH` — an unset or zero (falsy)
preference yields the default 20. -/
def getMaxHistoryLength (pref : Option Nat) : Nat :=
  match pref with
  | some n => if n = 0 then 20 else n
  | none => 20

/-- Models `while (history.length > maxLength) history.shift();`. -/
def trimFront (maxLength : Nat) : List Message → List Message
  | [] => []
  | x :: xs => if xs.length + 1 > maxLength then trimFront maxLength xs else x :: xs

/-- Embeds `getHistory` (main.js 821-833): empty for a falsy id, else the cached or
loaded history. -/
def getHistory (store : Store) (itemID : String) : List Message :=
  if itemID = "" then [] else store itemID

/-- Embeds `addMessage` (main.js 841-860): no-op for a falsy id; otherwise push
`{role, content, timestamp}`, trim from the front to the maximum length,
and write the list back (cache and storage). -/
def addMessage (store : Store) (itemID role content : String) (now maxLength : Nat) :
    Store :=
  if itemID = "" then store
  else fun k =>
    if k = itemID then trimFront maxLength (getHistory store itemID ++ [⟨role, content, now⟩])
    else store k

end ConversationStore

/-! ## Context builder

Embeds `GeminiService.buildContents` (main.js 437-485), the pure function
assembling the `contents` array of a Gemini request.
-/

namespace GeminiService

/-- One element of a content's `parts` array: a text part or an
`inlineData` image part. -/
inductive GPart where
  | text (s : String)
  | inlineData (mimeType data : String)
  deriving DecidableEq, Repr

/-- One element of the `contents` array. -/
structure GContent where
  role : String
  parts : List GPart
  deriving DecidableEq, Repr

/-- An image argument: `{ mimeType, data }` with a falsy (empty) mime type
defaulting to `"image/png"`. -/
structure GImage where
  mimeType : String
  data : String
  deriving DecidableEq, Repr

/-- Models `{ inlineData: { mimeType: img.mimeType || "image/png", data: img.data } }`. -/
def imgPart (img : GImage) : GPart :=
  GPart.inlineData (if img.mimeType = "" then "image/png" else img.mimeType) img.data

/-- The first part's text: system prompt, delimited paper content, and the
citation instruction. -/
def contextText (systemPrompt pdfContent : String) : String :=
  systemPrompt ++ "\n\n--- PAPER CONTENT ---\n" ++ pdfContent ++
    "\n--- END PAPER CONTENT ---\n\nPlease analyze this paper and respond to user queries. When referencing specific parts, mention page numbers like \"On page X...\" or \"(page X)\"."

/-- The canned acknowledgment turn. -/
def ackText : String :=
  "I have analyzed the paper. I\x27m ready to help you understand its content. Feel free to ask any questions about it."

/-- How one history message is replayed:
`role: msg.role === "user" ? "user" : "model"`. -/
def histContent (msg : Message) : GContent :=
  ⟨if msg.role = "user" then "user" else "model", [GPart.text msg.content]⟩

/-- Embeds `buildContents` (main.js 437-485), with the same sequence of pushes. -/
def buildContents (message pdfContent : String) (conversationHistory : List Message)
    (systemPrompt : String) (images : List GImage) : List GContent :=
  let contents : List GContent := []
  let contextParts := [GPart.text (contextText systemPrompt pdfContent)]
  let contextParts := contextParts ++ images.map imgPart
  let contents := contents ++ [⟨"user", contextParts⟩]
  let contents := contents ++ [⟨"model", [GPart.text ackText]⟩]
  let contents := contents ++ conversationHistory.map histContent
  let contents := contents ++ [⟨"user", [GPart.text message]⟩]
  contents

end GeminiService

/-! ## Chat panel

Embeds `ChatPanel` (chatPanel.js): the composite conversation id, the
`sendMessage` turn and `addPaperToContext`.  DOM rendering is abstracted
into the `TurnResult` outcome; the Zotero/network calls are an environment
record.
-/

/-- JavaScript `String.prototype.trim`: strip `\s` characters from both
ends. -/
def jsTrim (s : String) : String :=
  String.mk (((s.data.dropWhile jsIsSpace).reverse.dropWhile jsIsSpace).reverse)

/-- JavaScript `String.prototype.startsWith`. -/
def strStartsWith (s pat : String) : Bool :=
  decide (pat.data = s.data.take pat.data.length)

/-- Substring test, as JavaScript `String.prototype.includes`. -/
def listHasSub (pat : List Char) : List Char → Bool
  | [] => pat.isEmpty
  | c :: cs =>
    (decide (pat = (c :: cs).take pat.length)) || listHasSub pat cs

/-- Models `s.includes(pat)`. -/
def containsSub (s pat : String) : Bool := listHasSub pat.data s.data

namespace ChatPanel

/-- A Zotero item as the panel sees it. -/
structure Item where
  id : Nat
  title : String
  deriving DecidableEq, Repr

/-- An entry of `currentItems`: `{ item, attachment }` (the attachment is
optional and identified by its id). -/
structure ItemObj where
  item : Item
  attachment : Option Nat
  deriving DecidableEq, Repr

/-- The composite conversation id computed in `updateForItems`
(chatPanel.js 171) and `addPaperToContext` (chatPanel.js 572):
`items.map(x => x.item.id).sort().join('_')`.  JavaScript's default
`sort()` compares the decimal string forms. -/
def conversationID (ids : List Nat) : String :=
  String.intercalate "_" (List.insertionSort (· ≤ ·) (ids.map toString))

/-- The panel state touched by a turn. -/
structure PanelState where
  isLoading : Bool
  apiKey : String                 -- "" models a missing credential
  currentItems : List ItemObj
  currentID : String
  pdfContent : Option String
  store : ConversationStore.Store
  maxHistoryPref : Option Nat

/-- External outcomes during a turn: the per-attachment extraction results
and the Gemini call (`Except.error` carries the thrown message). -/
structure SendEnv where
  extractResult : Nat → Except String PDFExtractor.ExtractResult
  modelResponse : Except String String
  now : Nat

/-- The user-visible outcome of one `sendMessage` turn. -/
inductive TurnResult where
  | busy                                   -- isLoading guard: dropped
  | silentEmpty                            -- empty/whitespace-only input
  | keySaved                               -- credential pasted and stored
  | missingKey                             -- "Please enter API key"
  | noDocs                                 -- "No PDF attachments found"
  | success (text : String) (references : List Nat)
  | failure (authError : Bool) (message : String)
  deriving DecidableEq, Repr

/-- The extraction loop of `sendMessage` (chatPanel.js 308-325): per item,
`getField("title") || "Untitled"`, extract, truncate, and append a banner;
an extraction failure appends an error banner instead of aborting. -/
def combineTexts (env : SendEnv) (pdfItems : List ItemObj) : String :=
  pdfItems.foldl (fun acc itemObj =>
    let title := if itemObj.item.title = "" then "Untitled" else itemObj.item.title
    match itemObj.attachment with
    | some aid =>
      match env.extractResult aid with
      | Except.ok content =>
        acc ++ "\n\n--- Start of Paper: " ++ title ++ " ---\n" ++
          PDFExtractor.truncateToTokenLimit content.text ++ "\n--- End of Paper ---\n"
      | Except.error _ =>
        acc ++ "\n\n--- Error Reading Paper: " ++ title ++ " ---\n"
    | none => acc) ""

/-- Embeds `ChatPanel.sendMessage` (chatPanel.js 260-357).  The guards run in
source order; the catch block classifies the thrown message as an API-key
error when it includes "403" or "API key"; `finally` clears the loading
flag.  The store is only written (user message then assistant reply) on a
successful model call. -/
def sendMessage (st : PanelState) (env : SendEnv) (input : String) :
    PanelState × TurnResult :=
  if st.isLoading then (st, TurnResult.busy)
  else
    let message := jsTrim input
    if message = "" then (st, TurnResult.silentEmpty)
    else if st.apiKey = "" then
      if strStartsWith message "AI" && message.length > 30 then
        ({ st with apiKey := message }, TurnResult.keySaved)
      else (st, TurnResult.missingKey)
    else
      let pdfItems := st.currentItems.filter (fun x => x.attachment.isSome)
      if pdfItems.length = 0 then (st, TurnResult.noDocs)
      else
        let content :=
          match st.pdfContent with
          | some c => c
          | none => combineTexts env pdfItems
        let st1 := { st with pdfContent := some content }
        match env.modelResponse with
        | Except.ok text =>
          let refs := extractPageReferences text
          let maxLen := ConversationStore.getMaxHistoryLength st.maxHistoryPref
          let store1 :=
            ConversationStore.addMessage st1.store st.currentID "user" message env.now maxLen
          let store2 :=
            ConversationStore.addMessage store1 st.currentID "assistant" text env.now maxLen
          ({ st1 with store := store2, isLoading := false }, TurnResult.success text refs)
        | Except.error emsg =>
          let isAuth := containsSub emsg "403" || containsSub emsg "API key"
          ({ st1 with isLoading := false }, TurnResult.failure isAuth emsg)

/-- Embeds `ChatPanel.addPaperToContext` (chatPanel.js 561-580): a duplicate item
id only produces the "Paper already in chat" status; otherwise the item is
appended, the composite id recomputed and the content cache cleared. -/
def addPaperToContext (st : PanelState) (newItemObj : ItemObj) : PanelState × String :=
  if st.currentItems.any (fun x => x.item.id = newItemObj.item.id) then
    (st, "Paper already in chat")
  else
    let items' := st.currentItems ++ [newItemObj]
    let pdfCount := (items'.filter (fun x => x.attachment.isSome)).length
    ({ st with
        currentItems := items'
        currentID := conversationID (items'.map (fun x => x.item.id))
        pdfContent := none },
      "Added paper. Now chatting with " ++ toString pdfCount ++ " papers.")

end ChatPanel

/-! ## Concrete sample data used by witnesses and counterexamples -/

/-- A panel state with one item (id 7) already in the context set. -/
def c10SampleState : ChatPanel.PanelState where
  isLoading := false
  apiKey := "k"
  currentItems := [⟨⟨7, "A"⟩, some 70⟩]
  currentID := "7"
  pdfContent := some "cache"
  store := fun _ => []
  maxHistoryPref := none

/-- A panel state ready to send: key configured, one PDF item, no cache. -/
def sendSampleState : ChatPanel.PanelState where
  isLoading := false
  apiKey := "KEY-abc"
  currentItems := [⟨⟨1, "T"⟩, some 11⟩]
  currentID := "1"
  pdfContent := none
  store := fun _ => []
  maxHistoryPref := none

/-- A panel state with no credential configured. -/
def noKeySampleState : ChatPanel.PanelState where
  isLoading := false
  apiKey := ""
  currentItems := [⟨⟨1, "T"⟩, some 11⟩]
  currentID := "1"
  pdfContent := none
  store := fun _ => []
  maxHistoryPref := none

/-- An environment whose model call fails with an HTTP 403 error message. -/
def err403Env : ChatPanel.SendEnv where
  extractResult := fun _ => Except.ok ⟨"Lorem ipsum dolor sit amet, consectetur adipiscing elit text.", 3⟩
  modelResponse := Except.error "API error: 403 - Forbidden"
  now := 1000

/-- An extractor environment where the indexed full-text content is short
("ab") while an open reader holds a long usable text. -/
def shortCacheEnv : PDFExtractor.ExtractorEnv where
  isPdfAttachment := true
  itemContent := some ⟨"ab", 7⟩
  reader := some ⟨"This open reader text is certainly longer than fifty characters.", 3⟩
  cacheFile := none

/-! ## Scanner lemmas -/

theorem suffix_sublist {a b c : List Char} (h : a ++ b = c) : List.Sublist b c :=
  h ▸ List.sublist_append_right a b

theorem stripPageWord_append {cs w r : List Char}
    (h : stripPageWord cs = some (w, r)) : w ++ r = cs := by
  unfold stripPageWord at h
  split at h <;> simp only [Option.some.injEq, Prod.mk.injEq, reduceCtorEq] at h <;>
    (obtain ⟨rfl, rfl⟩ := h) <;> rfl

theorem matchNumTail_append {cs w r : List Char} {v : Nat}
    (h : matchNumTail cs = some (w, v, r)) : w ++ r = cs := by
  simp only [matchNumTail] at h
  split at h
  · exact absurd h (by simp)
  · simp only [Option.some.injEq, Prod.mk.injEq] at h
    obtain ⟨rfl, -, rfl⟩ := h
    rw [List.append_assoc, List.takeWhile_append_dropWhile, List.takeWhile_append_dropWhile]

theorem matchRangeTail_append {dash cs w r : List Char} {v : Nat}
    (h : matchRangeTail dash cs = some (w, v, r)) : w ++ r = cs := by
  simp only [matchRangeTail] at h
  split at h
  · exact absurd h (by simp)
  · rename_i c r5 heq
    split at h
    · split at h
      · rename_i w1 v1 rest heq2
        simp only [Option.some.injEq, Prod.mk.injEq] at h
        obtain ⟨rfl, -, rfl⟩ := h
        have h2 := matchNumTail_append heq2
        calc (cs.takeWhile jsIsSpace ++ (c :: w1)) ++ rest
            = cs.takeWhile jsIsSpace ++ (c :: (w1 ++ rest)) := by simp
          _ = cs.takeWhile jsIsSpace ++ (c :: r5) := by rw [h2]
          _ = cs.takeWhile jsIsSpace ++ cs.dropWhile jsIsSpace := by rw [heq]
          _ = cs := List.takeWhile_append_dropWhile _ _
      · exact absurd h (by simp)
    · exact absurd h (by simp)

theorem tryMatch_append {dash cs rest : List Char} {m : PageMatch}
    (h : tryMatch dash cs = some (m, rest)) : m.orig ++ rest = cs := by
  unfold tryMatch at h
  split at h
  · exact absurd h (by simp)
  · rename_i w r1 heq1
    split at h
    · exact absurd h (by simp)
    · rename_i w1 s r3 heq2
      split at h
      · rename_i w2 e r7 heq3
        simp only [Option.some.injEq, Prod.mk.injEq] at h
        obtain ⟨rfl, rfl⟩ := h
        show (w ++ w1 ++ w2) ++ r7 = cs
        rw [List.append_assoc, List.append_assoc, matchRangeTail_append heq3,
          matchNumTail_append heq2, stripPageWord_append heq1]
      · simp only [Option.some.injEq, Prod.mk.injEq] at h
        obtain ⟨rfl, rfl⟩ := h
        show (w ++ w1) ++ r3 = cs
        rw [List.append_assoc, matchNumTail_append heq2, stripPageWord_append heq1]

theorem tryMatch_rest_sublist {dash cs rest : List Char} {m : PageMatch}
    (h : tryMatch dash cs = some (m, rest)) : List.Sublist rest cs :=
  suffix_sublist (tryMatch_append h)

theorem matchRangeTail_congr {d1 d2 cs : List Char}
    (h : ∀ c ∈ cs, d1.contains c = d2.contains c) :
    matchRangeTail d1 cs = matchRangeTail d2 cs := by
  cases heq : cs.dropWhile jsIsSpace with
  | nil => simp only [matchRangeTail, heq]
  | cons c r5 =>
    have hsub : List.Sublist (cs.dropWhile jsIsSpace) cs := List.dropWhile_sublist jsIsSpace
    have hc : c ∈ cs := hsub.mem (heq ▸ List.mem_cons_self c r5)
    simp only [matchRangeTail, heq, h c hc]

theorem tryMatch_congr {d1 d2 cs : List Char}
    (h : ∀ c ∈ cs, d1.contains c = d2.contains c) :
    tryMatch d1 cs = tryMatch d2 cs := by
  cases heq1 : stripPageWord cs with
  | none => simp only [tryMatch, heq1]
  | some wr =>
    obtain ⟨w, r1⟩ := wr
    cases heq2 : matchNumTail r1 with
    | none => simp only [tryMatch, heq1, heq2]
    | some t =>
      obtain ⟨w1, s, r3⟩ := t
      have hsub : List.Sublist r3 cs :=
        (suffix_sublist (matchNumTail_append heq2)).trans
          (suffix_sublist (stripPageWord_append heq1))
      simp only [tryMatch, heq1, heq2,
        matchRangeTail_congr (fun c hc => h c (hsub.mem hc))]

theorem flattenChunks_consLit (c : Char) (L : List Chunk) :
    flattenChunks (consLit c L) = c :: flattenChunks L := by
  cases L with
  | nil => rfl
  | cons hd tl => cases hd <;> simp [consLit, flattenChunks]

theorem flattenChunks_scanAux (dash : List Char) :
    ∀ fuel cs, flattenChunks (scanAux dash fuel cs) = cs := by
  intro fuel
  induction fuel with
  | zero => intro cs; cases cs <;> simp [scanAux, flattenChunks]
  | succ n ih =>
    intro cs
    cases cs with
    | nil => simp [scanAux, flattenChunks]
    | cons c cs' =>
      cases htm : tryMatch dash (c :: cs') with
      | none =>
        simp only [scanAux, htm]
        rw [flattenChunks_consLit, ih]
      | some p =>
        obtain ⟨m, rest⟩ := p
        simp only [scanAux, htm]
        have hflat : flattenChunks (Chunk.mtc m :: scanAux dash n rest)
            = m.orig ++ flattenChunks (scanAux dash n rest) := by simp [flattenChunks]
        rw [hflat, ih, tryMatch_append htm]

theorem scanAux_congr {d1 d2 : List Char} :
    ∀ fuel cs, (∀ c ∈ cs, d1.contains c = d2.contains c) →
      scanAux d1 fuel cs = scanAux d2 fuel cs := by
  intro fuel
  induction fuel with
  | zero => intro cs _; cases cs <;> rfl
  | succ n ih =>
    intro cs h
    cases cs with
    | nil => rfl
    | cons c cs' =>
      have ht := @tryMatch_congr d1 d2 (c :: cs') h
      cases htm : tryMatch d2 (c :: cs') with
      | none =>
        simp only [scanAux, ht, htm]
        rw [ih cs' (fun x hx => h x (List.mem_cons_of_mem c hx))]
      | some p =>
        obtain ⟨m, rest⟩ := p
        simp only [scanAux, ht, htm]
        rw [ih rest (fun x hx => h x ((tryMatch_rest_sublist htm).mem hx))]

theorem clickPages_eq_endpoints (a : Nat) (chunks : List Chunk) :
    fragClickPages (chunks.map (renderChunk a)) = chunks.flatMap chunkEndpoints := by
  induction chunks with
  | nil => rfl
  | cons hd tl ih =>
    simp only [List.map_cons, fragClickPages, List.flatMap_cons] at ih ⊢
    rw [ih]
    congr 1
    cases hd with
    | lit s => rfl
    | mtc m =>
      simp only [renderChunk, chunkEndpoints]
      split
      · rfl
      · rfl

/-! ## Conversation-store lemmas -/

theorem trimFront_eq_drop (m : Nat) (l : List Message) :
    ConversationStore.trimFront m l = l.drop (l.length - m) := by
  induction l with
  | nil => simp [ConversationStore.trimFront]
  | cons x xs ih =>
    simp only [ConversationStore.trimFront]
    split
    · rename_i hgt
      rw [ih]
      have hm : xs.length + 1 - m = (xs.length - m) + 1 := by omega
      simp only [List.length_cons, hm, List.drop_succ_cons]
    · rename_i hle
      have hz : xs.length + 1 - m = 0 := by omega
      simp only [List.length_cons, hz, List.drop_zero]

theorem getMaxHistoryLength_pos (pref : Option Nat) :
    1 ≤ ConversationStore.getMaxHistoryLength pref := by
  cases pref with
  | none => norm_num [ConversationStore.getMaxHistoryLength]
  | some n =>
    by_cases h : n = 0 <;> simp [ConversationStore.getMaxHistoryLength, h]
    omega

/-! ## Claim theorems -/

/-- C1: the spec scenario claims
`extractReferences "Findings are on page 5 and also pages 10-12." = [5, 10, 11, 12]`,
i.e. that the word "pages" is matched by the singular-form pattern with a
following dash range.  The regex `(?:page|Page|PAGE)\s*(\d+)...` requires
digits directly after the literal word, so "pages 10-12" never matches and
the function returns `[5]`; with the singular keyword ("page 10-12") the
range logic does produce every page of the range. -/
theorem c1_plural_range_scenario :
    extractPageReferences "Findings are on page 5 and also pages 10-12." = [5] ∧
    extractPageReferences "Findings are on page 5 and also page 10-12." = [5, 10, 11, 12] := by
  constructor
  · decide
  · decide

/-- C9: a range reference whose second number is smaller than the first
contributes no page at all — the inclusive loop `for (p = start; p <= end;
p++)` runs zero times — so "page 7-5" yields nothing (not even 7) while
other matches in the same text are still extracted. -/
theorem c9_descending_range_empty :
    extractPageReferences "see page 7-5 and page 9." = [9] ∧
    ∀ s e : Nat, e < s → rangePages s (some e) = [] := by
  refine ⟨by decide, ?_⟩
  intro s e h
  simp only [rangePages, Option.getD]
  rw [show e + 1 - s = 0 from by omega]
  rfl

/-- Witness for C9 at the concrete reversed range 7-5. -/
theorem c9_descending_range_empty_witness : rangePages 7 (some 5) = [] :=
  c9_descending_range_empty.2 7 5 (by decide)

/-- C5: the derived conversation id is invariant under reordering of the
selected item ids — `items.map(x => x.item.id).sort().join('_')` gives the
same string for any permutation of the same ids. -/
theorem c5_conversationID_perm {ids1 ids2 : List Nat} (h : ids1.Perm ids2) :
    ChatPanel.conversationID ids1 = ChatPanel.conversationID ids2 := by
  unfold ChatPanel.conversationID
  congr 1
  exact List.eq_of_perm_of_sorted
    ((List.perm_insertionSort _ _).trans
      ((h.map toString).trans (List.perm_insertionSort _ _).symm))
    (List.sorted_insertionSort _ _) (List.sorted_insertionSort _ _)

/-- Witness for C5 at two concrete selection orders of the same ids. -/
theorem c5_conversationID_perm_witness :
    ChatPanel.conversationID [10, 9, 123] = ChatPanel.conversationID [123, 9, 10] :=
  c5_conversationID_perm (by decide)

/-- C10: adding a paper whose item id is already in the context set only
reports "Paper already in chat": the whole panel state — membership,
conversation id, and the cached combined text — is returned unchanged. -/
theorem c10_duplicate_add_noop (st : ChatPanel.PanelState) (n : ChatPanel.ItemObj)
    (h : ∃ x ∈ st.currentItems, x.item.id = n.item.id) :
    ChatPanel.addPaperToContext st n = (st, "Paper already in chat") := by
  have hb : st.currentItems.any (fun x => x.item.id = n.item.id) = true := by
    rw [List.any_eq_true]
    obtain ⟨x, hx, he⟩ := h
    exact ⟨x, hx, by simp [he]⟩
  unfold ChatPanel.addPaperToContext
  rw [if_pos hb]

/-- Witness for C10: a concrete duplicate add. -/
theorem c10_duplicate_add_noop_witness :
    ChatPanel.addPaperToContext c10SampleState ⟨⟨7, "B"⟩, none⟩
      = (c10SampleState, "Paper already in chat") :=
  c10_duplicate_add_noop c10SampleState ⟨⟨7, "B"⟩, none⟩
    ⟨⟨⟨7, "A"⟩, some 70⟩, by simp [c10SampleState], rfl⟩

/-- C6: `addMessage` then `getHistory`: the resulting history is the prior
history plus the new message with the oldest entries dropped from the
front, its length is `min(priorLength + 1, maxHistoryLength)`, the new
message is last, and the default maximum is 20. -/
theorem c6_addMessage_getHistory (store : ConversationStore.Store)
    (itemID role content : String) (now : Nat) (pref : Option Nat)
    (hid : itemID ≠ "") :
    ConversationStore.getHistory
        (ConversationStore.addMessage store itemID role content now
          (ConversationStore.getMaxHistoryLength pref)) itemID
      = (ConversationStore.getHistory store itemID ++ [Message.mk role content now]).drop
          ((ConversationStore.getHistory store itemID).length + 1
            - ConversationStore.getMaxHistoryLength pref) ∧
    (ConversationStore.getHistory
        (ConversationStore.addMessage store itemID role content now
          (ConversationStore.getMaxHistoryLength pref)) itemID).length
      = min ((ConversationStore.getHistory store itemID).length + 1)
          (ConversationStore.getMaxHistoryLength pref) ∧
    (ConversationStore.getHistory
        (ConversationStore.addMessage store itemID role content now
          (ConversationStore.getMaxHistoryLength pref)) itemID).getLast?
      = some (Message.mk role content now) ∧
    ConversationStore.getMaxHistoryLength none = 20 := by
  set maxLen := ConversationStore.getMaxHistoryLength pref with hmax
  set prior := ConversationStore.getHistory store itemID with hprior
  have hone : 1 ≤ maxLen := hmax ▸ getMaxHistoryLength_pos pref
  have hafter : ConversationStore.getHistory
      (ConversationStore.addMessage store itemID role content now maxLen) itemID
      = ConversationStore.trimFront maxLen (prior ++ [Message.mk role content now]) := by
    rw [hprior]
    simp [ConversationStore.getHistory, ConversationStore.addMessage, hid]
  have hlen : (prior ++ [Message.mk role content now]).length = prior.length + 1 := by
    simp
  rw [hafter, trimFront_eq_drop, hlen]
  have hk : prior.length + 1 - maxLen ≤ prior.length := by omega
  refine ⟨rfl, ?_, ?_, rfl⟩
  · rw [List.length_drop, hlen]
    omega
  · rw [List.drop_append_of_le_length hk, List.getLast?_concat]

/-- Witness for C6 on an empty prior history. -/
theorem c6_addMessage_getHistory_witness :
    (ConversationStore.getHistory
        (ConversationStore.addMessage (fun _ => []) "42" "user" "hi" 5
          (ConversationStore.getMaxHistoryLength none)) "42").getLast?
      = some (Message.mk "user" "hi" 5) :=
  (c6_addMessage_getHistory (fun _ => []) "42" "user" "hi" 5 none (by decide)).2.2.1

/-- A string of length greater than 50 is not empty. -/
theorem ne_empty_of_50_lt {s : String} (h : 50 < s.length) : s ≠ "" := by
  intro he
  subst he
  exact absurd h (by decide)

/-- C2 counterexample: with a short (2-character) indexed full-text entry
and an open reader holding usable (> 50 characters) text, `extractContent`
returns the short cached text — the indexed cache is consulted *before*
the live viewer and without any 50-character usability threshold,
contradicting the claimed strategy order. -/
theorem c2_cache_first_counterexample :
    PDFExtractor.extractContent shortCacheEnv = Except.ok ⟨"ab", 7⟩ ∧
    shortCacheEnv.reader =
      some ⟨"This open reader text is certainly longer than fifty characters.", 3⟩ ∧
    50 < "This open reader text is certainly longer than fifty characters.".length ∧
    ¬ 50 < "ab".length := by
  exact ⟨rfl, rfl, by decide, by decide⟩

/-- C2 (amended): `extractContent` first returns the host's indexed
full-text content whenever it is non-empty; only when that yields nothing
does it try the open viewer (used if its text length exceeds 50), then the
index cache file (used if its length exceeds 50); if all fail it throws the
message instructing the user to open the PDF, and any returned text is
non-empty. -/
theorem c2_extraction_order_amended (env : PDFExtractor.ExtractorEnv)
    (hp : env.isPdfAttachment = true) :
    (∀ c : PDFExtractor.FullTextContent, env.itemContent = some c → c.content ≠ "" →
      PDFExtractor.extractContent env = Except.ok ⟨c.content, c.pageCount⟩) ∧
    (∀ r : PDFExtractor.ReaderResult, PDFExtractor.getCachedFullText env = none →
      env.reader = some r → 50 < r.text.length →
      PDFExtractor.extractContent env = Except.ok ⟨r.text, r.pageCount⟩) ∧
    (∀ c : String, PDFExtractor.getCachedFullText env = none →
      (∀ r : PDFExtractor.ReaderResult, env.reader = some r → ¬ 50 < r.text.length) →
      env.cacheFile = some c → 50 < c.length →
      PDFExtractor.extractContent env = Except.ok ⟨c, 0⟩) ∧
    (PDFExtractor.getCachedFullText env = none →
      (∀ r : PDFExtractor.ReaderResult, env.reader = some r → ¬ 50 < r.text.length) →
      (∀ c : String, env.cacheFile = some c → ¬ 50 < c.length) →
      PDFExtractor.extractContent env = Except.error PDFExtractor.openTabMessage) ∧
    (∀ t : String, ∀ pc : Nat,
      PDFExtractor.extractContent env = Except.ok ⟨t, pc⟩ → t ≠ "") := by
  refine ⟨?_, ?_, ?_, ?_, ?_⟩
  · intro c hc hne
    simp [PDFExtractor.extractContent, hp, PDFExtractor.getCachedFullText, hc, hne]
  · intro r hnone hr h50
    simp [PDFExtractor.extractContent, hp, hnone,
      PDFExtractor.extractWithZoteroFulltext, hr, h50]
  · intro c hnone hreader hc h50
    cases hre : env.reader with
    | none =>
      simp [PDFExtractor.extractContent, hp, hnone,
        PDFExtractor.extractWithZoteroFulltext, hre, hc, h50]
    | some r =>
      have hshort := hreader r hre
      simp [PDFExtractor.extractContent, hp, hnone,
        PDFExtractor.extractWithZoteroFulltext, hre, hshort, hc, h50]
  · intro hnone hreader hcache
    cases hre : env.reader with
    | none =>
      cases hcf : env.cacheFile with
      | none =>
        simp [PDFExtractor.extractContent, hp, hnone,
          PDFExtractor.extractWithZoteroFulltext, hre, hcf]
      | some c =>
        have hshort := hcache c hcf
        simp [PDFExtractor.extractContent, hp, hnone,
          PDFExtractor.extractWithZoteroFulltext, hre, hcf, hshort]
    | some r =>
      have hrshort := hreader r hre
      cases hcf : env.cacheFile with
      | none =>
        simp [PDFExtractor.extractContent, hp, hnone,
          PDFExtractor.extractWithZoteroFulltext, hre, hrshort, hcf]
      | some c =>
        have hshort := hcache c hcf
        simp [PDFExtractor.extractContent, hp, hnone,
          PDFExtractor.extractWithZoteroFulltext, hre, hrshort, hcf, hshort]
  · intro t pc hok
    have hstep : PDFExtractor.extractContent env
        = (match PDFExtractor.getCachedFullText env with
           | some f => Except.ok f
           | none => PDFExtractor.extractWithZoteroFulltext env) := by
      simp [PDFExtractor.extractContent, hp]
    rw [hstep] at hok
    cases hcc : PDFExtractor.getCachedFullText env with
    | some f =>
      rw [hcc] at hok
      have hf : f.text ≠ "" := by
        unfold PDFExtractor.getCachedFullText at hcc
        cases hic : env.itemContent with
        | none => rw [hic] at hcc; simp at hcc
        | some c =>
          rw [hic] at hcc
          by_cases hce : c.content = ""
          · simp [hce] at hcc
          · simp [hce] at hcc
            rw [← hcc]
            exact hce
      simp only [Except.ok.injEq] at hok
      rw [hok] at hf
      exact hf
    | none =>
      rw [hcc] at hok
      have hcf_case : ∀ hcf' : Option String, hcf' = env.cacheFile →
          (match hcf' with
           | some c =>
             if c.length > 50 then Except.ok (⟨c, 0⟩ : PDFExtractor.ExtractResult)
             else Except.error PDFExtractor.openTabMessage
           | none => Except.error PDFExtractor.openTabMessage)
            = Except.ok (⟨t, pc⟩ : PDFExtractor.ExtractResult) → t ≠ "" := by
        intro hcf' _ hok2
        cases hcf' with
        | none => simp at hok2
        | some c =>
          by_cases hc50 : c.length > 50
          · simp [hc50] at hok2
            rw [← hok2.1]
            exact ne_empty_of_50_lt hc50
          · simp [hc50] at hok2
      cases hre : env.reader with
      | some r =>
        by_cases h50 : r.text.length > 50
        · have : PDFExtractor.extractWithZoteroFulltext env
              = Except.ok ⟨r.text, r.pageCount⟩ := by
            simp [PDFExtractor.extractWithZoteroFulltext, hre, h50]
          rw [this] at hok
          simp only [Except.ok.injEq, PDFExtractor.ExtractResult.mk.injEq] at hok
          obtain ⟨ht, -⟩ := hok
          rw [← ht]
          exact ne_empty_of_50_lt h50
        · have : PDFExtractor.extractWithZoteroFulltext env
              = (match env.cacheFile with
                 | some c =>
                   if c.length > 50 then Except.ok (⟨c, 0⟩ : PDFExtractor.ExtractResult)
                   else Except.error PDFExtractor.openTabMessage
                 | none => Except.error PDFExtractor.openTabMessage) := by
            simp [PDFExtractor.extractWithZoteroFulltext, hre, h50]
          rw [this] at hok
          exact hcf_case env.cacheFile rfl hok
      | none =>
        have : PDFExtractor.extractWithZoteroFulltext env
            = (match env.cacheFile with
               | some c =>
                 if c.length > 50 then Except.ok (⟨c, 0⟩ : PDFExtractor.ExtractResult)
                 else Except.error PDFExtractor.openTabMessage
               | none => Except.error PDFExtractor.openTabMessage) := by
          simp [PDFExtractor.extractWithZoteroFulltext, hre]
        rw [this] at hok
        exact hcf_case env.cacheFile rfl hok

/-- Witness for C2 (amended), applied to the concrete environment. -/
theorem c2_extraction_order_amended_witness :
    PDFExtractor.extractContent shortCacheEnv = Except.ok ⟨"ab", 7⟩ :=
  (c2_extraction_order_amended shortCacheEnv rfl).1 ⟨"ab", 7⟩ rfl (by decide)

/-- C4: when the guards pass but the model call throws, the turn ends with
a failure classified as an API-key error exactly when the thrown message
contains "403" or "API key", the loading flag is cleared (state back to
Idle), and the persisted conversation store is left untouched — neither
the user message nor any assistant reply is appended. -/
theorem c4_model_failure_aborts (st : ChatPanel.PanelState) (env : ChatPanel.SendEnv)
    (input emsg : String)
    (h1 : st.isLoading = false) (h2 : jsTrim input ≠ "") (h3 : st.apiKey ≠ "")
    (h4 : (st.currentItems.filter fun x => x.attachment.isSome) ≠ [])
    (h5 : env.modelResponse = Except.error emsg) :
    (ChatPanel.sendMessage st env input).1.store = st.store ∧
    (ChatPanel.sendMessage st env input).1.isLoading = false ∧
    (ChatPanel.sendMessage st env input).2
      = ChatPanel.TurnResult.failure
          (containsSub emsg "403" || containsSub emsg "API key") emsg := by
  have hlen : ¬ (st.currentItems.filter fun x => x.attachment.isSome).length = 0 := by
    simpa [List.length_eq_zero] using h4
  simp [ChatPanel.sendMessage, h1, h2, h3, hlen, h5]

/-- Witness for C4: a concrete 403 failure. -/
theorem c4_model_failure_aborts_witness :
    (ChatPanel.sendMessage sendSampleState err403Env "What is the method?").1.store
        = sendSampleState.store ∧
    (ChatPanel.sendMessage sendSampleState err403Env "What is the method?").1.isLoading
        = false ∧
    (ChatPanel.sendMessage sendSampleState err403Env "What is the method?").2
        = ChatPanel.TurnResult.failure true "API error: 403 - Forbidden" := by
  have h := c4_model_failure_aborts sendSampleState err403Env "What is the method?"
    "API error: 403 - Forbidden" rfl (by decide) (by decide) (by decide) rfl
  refine ⟨h.1, h.2.1, ?_⟩
  rw [h.2.2]
  decide

/-- C7: the turn guards run in order and short-circuit.  With the panel
idle: (1) empty or whitespace-only input returns the state unchanged with
no visible effect; (2) with no credential, an input that starts with "AI"
and is longer than 30 characters is stored as the credential and the turn
ends as configuration; (3) with no credential otherwise the turn is
rejected as missing-credential with the state (hence the history)
unchanged and no model call made. -/
theorem c7_guard_order (st : ChatPanel.PanelState) (env : ChatPanel.SendEnv)
    (h0 : st.isLoading = false) :
    (∀ input : String, jsTrim input = "" →
      ChatPanel.sendMessage st env input = (st, ChatPanel.TurnResult.silentEmpty)) ∧
    (∀ input : String, st.apiKey = "" → jsTrim input ≠ "" →
      strStartsWith (jsTrim input) "AI" = true → 30 < (jsTrim input).length →
      ChatPanel.sendMessage st env input
        = ({ st with apiKey := jsTrim input }, ChatPanel.TurnResult.keySaved)) ∧
    (∀ input : String, st.apiKey = "" → jsTrim input ≠ "" →
      ¬(strStartsWith (jsTrim input) "AI" = true ∧ 30 < (jsTrim input).length) →
      ChatPanel.sendMessage st env input = (st, ChatPanel.TurnResult.missingKey)) := by
  refine ⟨?_, ?_, ?_⟩
  · intro input hempty
    simp [ChatPanel.sendMessage, h0, hempty]
  · intro input hkey hne hs hl
    simp [ChatPanel.sendMessage, h0, hkey, hne, hs, hl]
  · intro input hkey hne hn
    have hcond : ¬ ((strStartsWith (jsTrim input) "AI" && decide ((jsTrim input).length > 30)) = true) := by
      simpa [Bool.and_eq_true, decide_eq_true_eq] using hn
    simp [ChatPanel.sendMessage, h0, hkey, hne, hcond]

/-- Witness for C7: a plain question with no credential configured is
rejected without touching the state. -/
theorem c7_guard_order_witness :
    ChatPanel.sendMessage noKeySampleState err403Env "What is the method?"
      = (noKeySampleState, ChatPanel.TurnResult.missingKey) :=
  (c7_guard_order noKeySampleState err403Env rfl).2.2 "What is the method?" rfl
    (by decide) (by decide)

/-- C8: `buildContents` is a pure function producing exactly: the
context-setter block (system prompt, delimited document text, citation
instruction) with the image blocks attached to it, then the constant
acknowledgment turn in role "model", then the history replayed in order
with every non-"user" role collapsed to "model", and the new user message
as the final "user" turn. -/
theorem c8_buildContents_structure (message pdfContent : String)
    (history : List Message) (systemPrompt : String)
    (images : List GeminiService.GImage) :
    (GeminiService.buildContents message pdfContent history systemPrompt images).length
      = history.length + 3 ∧
    (GeminiService.buildContents message pdfContent history systemPrompt images).take 2
      = [⟨"user", GeminiService.GPart.text (GeminiService.contextText systemPrompt pdfContent)
            :: images.map GeminiService.imgPart⟩,
         ⟨"model", [GeminiService.GPart.text GeminiService.ackText]⟩] ∧
    (GeminiService.buildContents message pdfContent history systemPrompt images).drop 2
      = history.map GeminiService.histContent
          ++ [⟨"user", [GeminiService.GPart.text message]⟩] ∧
    (GeminiService.buildContents message pdfContent history systemPrompt images).getLast?
      = some ⟨"user", [GeminiService.GPart.text message]⟩ ∧
    (∀ msg : Message, msg.role ≠ "user" →
      GeminiService.histContent msg = ⟨"model", [GeminiService.GPart.text msg.content]⟩) := by
  have hb : GeminiService.buildContents message pdfContent history systemPrompt images
      = ⟨"user", GeminiService.GPart.text (GeminiService.contextText systemPrompt pdfContent)
            :: images.map GeminiService.imgPart⟩
        :: ⟨"model", [GeminiService.GPart.text GeminiService.ackText]⟩
        :: (history.map GeminiService.histContent
            ++ [⟨"user", [GeminiService.GPart.text message]⟩]) := by
    simp [GeminiService.buildContents]
  refine ⟨?_, ?_, ?_, ?_, ?_⟩
  · rw [hb]; simp
  · rw [hb]; rfl
  · rw [hb]; rfl
  · rw [hb]
    have hsplit :
        (⟨"user", GeminiService.GPart.text (GeminiService.contextText systemPrompt pdfContent)
            :: images.map GeminiService.imgPart⟩ : GeminiService.GContent)
          :: ⟨"model", [GeminiService.GPart.text GeminiService.ackText]⟩
          :: (history.map GeminiService.histContent
              ++ [⟨"user", [GeminiService.GPart.text message]⟩])
        = (⟨"user", GeminiService.GPart.text (GeminiService.contextText systemPrompt pdfContent)
              :: images.map GeminiService.imgPart⟩
            :: ⟨"model", [GeminiService.GPart.text GeminiService.ackText]⟩
            :: history.map GeminiService.histContent)
          ++ [⟨"user", [GeminiService.GPart.text message]⟩] := by simp
    rw [hsplit, List.getLast?_concat]
  · intro msg hm
    simp [GeminiService.histContent, hm]

/-- Witness for C8: the role collapse applied to an "assistant" message. -/
theorem c8_buildContents_structure_witness :
    GeminiService.histContent ⟨"assistant", "ok", 3⟩
      = ⟨"model", [GeminiService.GPart.text "ok"]⟩ :=
  (c8_buildContents_structure "m" "p" [] "s" []).2.2.2.2 ⟨"assistant", "ok", 3⟩ (by decide)

/-- C3 counterexample: linkify does not reproduce `extractReferences`' page
set.  On "page 5-7" the clickable units carry only the endpoints 5 and 7
while `extractReferences` yields [5, 6, 7]; and the two functions do not
even scan with the same pattern — the en-dash range "page 2–4" is a range
for `extractReferences` ([2, 3, 4]) but linkify's dash class (a mojibake
artifact) does not contain U+2013, so it renders a single page-2 unit. -/
theorem c3_linkify_counterexample :
    fragClickPages (parseAndLinkReferences "page 5-7" 1) ≠ extractPageReferences "page 5-7" ∧
    fragClickPages (parseAndLinkReferences "page 5-7" 1) = [5, 7] ∧
    extractPageReferences "page 5-7" = [5, 6, 7] ∧
    fragClickPages (parseAndLinkReferences "page 2–4" 1) = [2] ∧
    extractPageReferences "page 2–4" = [2, 3, 4] := by
  refine ⟨by decide, by decide, by decide, by decide, by decide⟩

/-- C3 (amended): linkify re-scans with the same pattern except for the
range-separator class ('-' and '–' in `extractPageReferences`; '-', 'â',
'€', '“' in `parseAndLinkReferences`); the original characters are
reproduced around the matches in order (so unmatched text is emitted
byte-identically); each single-page match becomes one clickable unit
carrying `(attachmentID, page)`; each range match with distinct endpoints
becomes the span `"pages " + clickable(start) + "-" + clickable(end)`; the
clickable units are exactly the match endpoints, not every page of a
range; and on text free of the four differing dash characters both
functions scan identically. -/
theorem c3_linkify_amended (text : String) (attachmentID : Nat) :
    flattenChunks (scanChunks linkDash text.data) = text.data ∧
    parseAndLinkReferences text attachmentID
      = (scanChunks linkDash text.data).map (renderChunk attachmentID) ∧
    fragClickPages (parseAndLinkReferences text attachmentID)
      = (scanChunks linkDash text.data).flatMap chunkEndpoints ∧
    (∀ m : PageMatch, m.startPage ≠ m.endPage.getD m.startPage →
      renderChunk attachmentID (Chunk.mtc m)
        = FragNode.span
            [LeafNode.txt "pages ", LeafNode.ref attachmentID m.startPage,
             LeafNode.txt "-", LeafNode.ref attachmentID (m.endPage.getD m.startPage)]) ∧
    (∀ m : PageMatch, m.startPage = m.endPage.getD m.startPage →
      renderChunk attachmentID (Chunk.mtc m)
        = FragNode.leaf (LeafNode.ref attachmentID m.startPage)) ∧
    ((∀ c ∈ text.data, c ∉ ['–', 'â', '€', '“']) →
      scanChunks linkDash text.data = scanChunks extractDash text.data) := by
  refine ⟨flattenChunks_scanAux linkDash text.data.length text.data, rfl,
    clickPages_eq_endpoints attachmentID (scanChunks linkDash text.data), ?_, ?_, ?_⟩
  · intro m hne
    simp only [renderChunk]
    rw [if_neg hne]
  · intro m he
    simp only [renderChunk]
    rw [if_pos he]
  · intro hc
    unfold scanChunks
    apply scanAux_congr
    intro c hmem
    have hd := hc c hmem
    simp only [List.mem_cons, List.mem_singleton, not_or] at hd
    obtain ⟨h1, h2, h3, h4⟩ := hd
    by_cases hdash : c = '-' <;>
      simp [linkDash, extractDash, hdash, h1, h2, h3, h4]

/-- Witness for C3 (amended): the two scanners agree on a text containing
only the shared hyphen separator. -/
theorem c3_linkify_amended_witness :
    scanChunks linkDash "page 3-4 ok".data = scanChunks extractDash "page 3-4 ok".data :=
  (c3_linkify_amended "page 3-4 ok" 1).2.2.2.2.2 (by decide)

end PaperChat
